import Mathlib

/-!
Shallow embedding of the BalloonGame contract (src/ballongame.sol) and
verification of its specification's claims.

The contract keeps, per player address, a `GameState` struct, a high score,
and an append-only player registry used by the leaderboard.  The mutating
entry points are `startGame`, `pumpBalloon` and `collectPoints`; a failing
`require` reverts the transaction, leaving storage unchanged.  We embed the
per-player storage as `GameState × Nat` (the game struct and the player's
high score), each entry point as an `Except`-valued function following the
Solidity control flow statement by statement, and a reverting transaction
semantics `step` that keeps the old state on error.
-/

namespace BalloonGame

/-- The per-player game struct of the contract (`struct GameState`). -/
structure GameState where
  currentRound : Nat
  pumpCount : Nat
  pendingPoints : Nat
  totalScore : Nat
  isActive : Bool
deriving Repr, DecidableEq

/-- Storage default for a mapping entry never written (all fields zero). -/
def GameState.zero : GameState :=
  { currentRound := 0, pumpCount := 0, pendingPoints := 0, totalScore := 0, isActive := false }

/-- The constant `ENTRY_FEE = 0.001 ether`, in wei. -/
def ENTRY_FEE : Nat := 1000000000000000

/-- The constant `MAX_ROUNDS = 5`. -/
def MAX_ROUNDS : Nat := 5

/-- The spec's error taxonomy; each constructor corresponds to one
`require` message in the contract. -/
inductive GameError where
  | AlreadyActive
  | WrongFee
  | NoActiveGame
  | RoundExhausted
  | PumpCapReached
  | NothingToBank
deriving Repr, DecidableEq

/-- Embeds `startGame()` on the caller's game struct.  Requires no active game and
`msg.value == ENTRY_FEE`, then overwrites the struct with a fresh game. -/
def startGame (g : GameState) (paidFee : Nat) : Except GameError GameState :=
  if g.isActive then .error .AlreadyActive
  else if paidFee ≠ ENTRY_FEE then .error .WrongFee
  else .ok { currentRound := 1, pumpCount := 0, pendingPoints := 0,
             totalScore := 0, isActive := true }

/-- Embeds `pumpBalloon()`.  Requires an active game, `currentRound <= MAX_ROUNDS`
and `pumpCount < 2`; then increments the pump count and credits
`10 * 2 ^ (pumpCount - 1)` points, with `pumpCount` already incremented. -/
def pumpBalloon (g : GameState) : Except GameError GameState :=
  if ¬ g.isActive then .error .NoActiveGame
  else if ¬ (g.currentRound ≤ MAX_ROUNDS) then .error .RoundExhausted
  else if ¬ (g.pumpCount < 2) then .error .PumpCapReached
  else
    let pc := g.pumpCount + 1
    let earnedPoints := 10 * 2 ^ (pc - 1)
    .ok { g with pumpCount := pc, pendingPoints := g.pendingPoints + earnedPoints }

/-- Embeds `collectPoints()` together with the `_endGame` it may call.  Takes and
returns the caller's high-score cell as well, since `_endGame` may write it.
Requires an active game and at least one pump; banks `pendingPoints` into
`totalScore`; then either advances the round (resetting `pumpCount` and
`pendingPoints`) or, from round `MAX_ROUNDS`, runs `_endGame`, which only
updates the high score and clears `isActive`. -/
def collectPoints (g : GameState) (hs : Nat) : Except GameError (GameState × Nat) :=
  if ¬ g.isActive then .error .NoActiveGame
  else if ¬ (g.pumpCount > 0) then .error .NothingToBank
  else
    let g1 := { g with totalScore := g.totalScore + g.pendingPoints }
    if g1.currentRound < MAX_ROUNDS then
      .ok ({ g1 with currentRound := g1.currentRound + 1, pumpCount := 0, pendingPoints := 0 }, hs)
    else
      .ok ({ g1 with isActive := false },
           if g1.totalScore > hs then g1.totalScore else hs)

/-- A transaction a player can submit to the contract. -/
inductive Op where
  | start (paidFee : Nat)
  | pump
  | bank
deriving Repr, DecidableEq

/-- Per-player storage: the game struct and the player's high score. -/
abbrev PState := GameState × Nat

/-- Initial storage for a fresh player: zeroed struct, zero high score. -/
def initState : PState := (GameState.zero, 0)

/-- Apply one transaction to a player's storage, propagating the revert. -/
def applyOp (s : PState) : Op → Except GameError PState
  | .start fee => (startGame s.1 fee).map fun g => (g, s.2)
  | .pump => (pumpBalloon s.1).map fun g => (g, s.2)
  | .bank => collectPoints s.1 s.2

/-- Transaction semantics: a reverted call leaves storage unchanged. -/
def step (s : PState) (op : Op) : PState :=
  match applyOp s op with
  | .ok s' => s'
  | .error _ => s

/-- Run a sequence of transactions from a state. -/
def run (s : PState) (ops : List Op) : PState :=
  ops.foldl step s

/-- True when a transaction list contains no `start` operation. -/
def noStart (ops : List Op) : Bool :=
  ops.all fun op => match op with
    | .start _ => false
    | _ => true

/-- Collects the `pendingPoints` amounts committed by each successful bank along a run. -/
def bankedAmounts : PState → List Op → List Nat
  | _, [] => []
  | s, op :: ops =>
    match op with
    | .bank =>
      match collectPoints s.1 s.2 with
      | .ok s' => s.1.pendingPoints :: bankedAmounts s' ops
      | .error _ => bankedAmounts s ops
    | _ => bankedAmounts (step s op) ops

/-- True when the game is active at every state an operation is applied to
along the run (and at the final state). -/
def activeAlong : PState → List Op → Bool
  | s, [] => s.1.isActive
  | s, op :: ops => s.1.isActive && activeAlong (step s op) ops

/-! ### Leaderboard (`getLeaderboard`)

The contract copies the registered players and their high scores into two
parallel arrays, runs an in-place exchange sort (outer index `i` from `0`,
inner index `j` from `i + 1`; whenever `scores[j] > scores[i]` both arrays
swap positions `i` and `j`), and returns the first `min(n, 10)` entries.
We embed the parallel arrays as one list of `(player, score)` pairs and the
two nested `for` loops as folds over their index ranges. -/

/-- Swap positions `i` and `j` of a list (the parallel-array swap). -/
def lbSwap (l : List (Nat × Nat)) (i j : Nat) : List (Nat × Nat) :=
  match l.get? i, l.get? j with
  | some a, some b => (l.set i b).set j a
  | _, _ => l

/-- The inner loop of the sort: for each index `j` in `js`, swap entries
`i` and `j` whenever the score at `j` exceeds the score at `i`. -/
def lbInner (i : Nat) : List Nat → List (Nat × Nat) → List (Nat × Nat)
  | [], arr => arr
  | j :: js, arr =>
    lbInner i js
      (if (arr.getD j (0, 0)).2 > (arr.getD i (0, 0)).2 then lbSwap arr i j else arr)

/-- The full nested-loop sort of `getLeaderboard`: outer index `i` ranges
over `0..n-1`, inner index `j` over `i+1..n-1`, with `n` the player count
fixed before the loops. -/
def lbSort (arr : List (Nat × Nat)) : List (Nat × Nat) :=
  (List.range arr.length).foldl
    (fun a i => lbInner i (List.range' (i + 1) (arr.length - (i + 1))) a) arr

/-- Embeds `getLeaderboard()`: build the (player, highScore) pairs in registration
order, sort with the nested-loop sort, return the first `min(n, 10)`. -/
def getLeaderboard (players : List Nat) (highScores : Nat → Nat) : List (Nat × Nat) :=
  (lbSort (players.map fun p => (p, highScores p))).take 10

/-- One pass of the exchange sort in structural form: scanning the tail with
a current entry for position `i`, each tail element with a larger score
changes place with the current entry (the swap of the inner loop); returns
the final entry for position `i` and the tail left behind. -/
def selectPass : (Nat × Nat) → List (Nat × Nat) → ((Nat × Nat) × List (Nat × Nat))
  | cur, [] => (cur, [])
  | cur, x :: xs =>
    if x.2 > cur.2 then ((selectPass x xs).1, cur :: (selectPass x xs).2)
    else ((selectPass cur xs).1, x :: (selectPass cur xs).2)

/-- Fuelled iteration of `selectPass` (fuel bounds the list length). -/
def selSortFuel : Nat → List (Nat × Nat) → List (Nat × Nat)
  | 0, _ => []
  | _ + 1, [] => []
  | fuel + 1, x :: xs => (selectPass x xs).1 :: selSortFuel fuel (selectPass x xs).2

/-- The exchange sort in structural form: repeatedly run `selectPass`. -/
def selSort (l : List (Nat × Nat)) : List (Nat × Nat) :=
  selSortFuel l.length l

/-- The fresh struct installed by a successful `startGame`. -/
def freshGame : GameState :=
  { currentRound := 1, pumpCount := 0, pendingPoints := 0, totalScore := 0, isActive := true }

/-- The state written by a bank that advances the round (rounds 1 to 4). -/
def advanceGame (g : GameState) : GameState :=
  { g with currentRound := g.currentRound + 1, pumpCount := 0, pendingPoints := 0,
           totalScore := g.totalScore + g.pendingPoints }

/-- The state written by the final bank (round `MAX_ROUNDS`), via `_endGame`. -/
def endGame (g : GameState) : GameState :=
  { g with totalScore := g.totalScore + g.pendingPoints, isActive := false }

/-! ### Inversion lemmas for the three entry points -/

theorem startGame_ok_iff (g : GameState) (fee : Nat) (g' : GameState) :
    startGame g fee = .ok g' ↔ g.isActive = false ∧ fee = ENTRY_FEE ∧ g' = freshGame := by
  unfold startGame
  split_ifs with h1 h2
  · simp [h1]
  · simp [h1, h2]
  · simp only [Bool.not_eq_true] at h1
    simp only [not_not] at h2
    simp [h1, h2, freshGame]
    exact ⟨fun h => h.symm, fun h => h.symm⟩

theorem startGame_error_active (g : GameState) (fee : Nat) (h : g.isActive = true) :
    startGame g fee = .error .AlreadyActive := by
  unfold startGame
  simp [h]

theorem startGame_error_fee (g : GameState) (fee : Nat) (h : g.isActive = false)
    (hfee : fee ≠ ENTRY_FEE) : startGame g fee = .error .WrongFee := by
  unfold startGame
  simp [h, hfee]

theorem pumpBalloon_ok_iff (g : GameState) (g' : GameState) :
    pumpBalloon g = .ok g' ↔
      g.isActive = true ∧ g.currentRound ≤ MAX_ROUNDS ∧ g.pumpCount < 2 ∧
        g' = { g with pumpCount := g.pumpCount + 1,
                      pendingPoints := g.pendingPoints + 10 * 2 ^ g.pumpCount } := by
  by_cases h1 : g.isActive = true
  · by_cases h2 : g.currentRound ≤ MAX_ROUNDS
    · by_cases h3 : g.pumpCount < 2
      · simp [pumpBalloon, h1, h2, h3]
        exact ⟨fun h => h.symm, fun h => h.symm⟩
      · simp [pumpBalloon, h1, h2, h3]
    · simp [pumpBalloon, h1, h2]
  · simp [pumpBalloon, h1]

theorem pumpBalloon_error_inactive (g : GameState) (h : g.isActive = false) :
    pumpBalloon g = .error .NoActiveGame := by
  unfold pumpBalloon
  simp [h]

theorem pumpBalloon_error_cap (g : GameState) (h : g.isActive = true)
    (hr : g.currentRound ≤ MAX_ROUNDS) (hc : ¬ g.pumpCount < 2) :
    pumpBalloon g = .error .PumpCapReached := by
  unfold pumpBalloon
  simp [h, hr, hc]

theorem collectPoints_ok_iff (g : GameState) (hs : Nat) (p : GameState × Nat) :
    collectPoints g hs = .ok p ↔
      g.isActive = true ∧ 0 < g.pumpCount ∧
        ((g.currentRound < MAX_ROUNDS ∧ p = (advanceGame g, hs)) ∨
         (¬ g.currentRound < MAX_ROUNDS ∧
           p = (endGame g,
                if g.totalScore + g.pendingPoints > hs then g.totalScore + g.pendingPoints
                else hs))) := by
  by_cases h1 : g.isActive = true
  · by_cases h2 : 0 < g.pumpCount
    · by_cases h3 : g.currentRound < MAX_ROUNDS
      · simp [collectPoints, advanceGame, h1, h2, h3]
        exact ⟨fun h => h.symm, fun h => h.symm⟩
      · simp [collectPoints, endGame, h1, h2, h3]
        exact ⟨fun h => h.symm, fun h => h.symm⟩
    · simp [collectPoints, h1, h2]
  · simp [collectPoints, h1]

theorem collectPoints_error_inactive (g : GameState) (hs : Nat) (h : g.isActive = false) :
    collectPoints g hs = .error .NoActiveGame := by
  unfold collectPoints
  simp [h]

theorem collectPoints_error_nothing (g : GameState) (hs : Nat) (h : g.isActive = true)
    (hc : g.pumpCount = 0) : collectPoints g hs = .error .NothingToBank := by
  unfold collectPoints
  simp [h, hc]

theorem step_of_error (s : PState) (op : Op) (e : GameError)
    (h : applyOp s op = .error e) : step s op = s := by
  unfold step
  rw [h]

theorem step_of_ok (s s' : PState) (op : Op) (h : applyOp s op = .ok s') :
    step s op = s' := by
  unfold step
  rw [h]

theorem applyOp_start_error (s : PState) (fee : Nat) (e : GameError)
    (h : startGame s.1 fee = .error e) : applyOp s (.start fee) = .error e := by
  simp [applyOp, h, Except.map]

theorem applyOp_pump_error (s : PState) (e : GameError)
    (h : pumpBalloon s.1 = .error e) : applyOp s .pump = .error e := by
  simp [applyOp, h, Except.map]

/-! ### Claims about single operations -/

/-- C3: `startGame` fails with `AlreadyActive` whenever the caller's game is
active (whatever its round or score), fails with `WrongFee` whenever the
game is inactive but the paid fee differs from `ENTRY_FEE`, in both cases
leaving the stored state unchanged; otherwise it succeeds and installs the
fresh struct `currentRound = 1`, `pumpCount = 0`, `pendingPoints = 0`,
`totalScore = 0`, `isActive = true`. -/
theorem claim_C3 (g : GameState) (hs fee : Nat) :
    (g.isActive = true → applyOp (g, hs) (.start fee) = .error .AlreadyActive ∧
      step (g, hs) (.start fee) = (g, hs)) ∧
    (g.isActive = false → fee ≠ ENTRY_FEE →
      applyOp (g, hs) (.start fee) = .error .WrongFee ∧
      step (g, hs) (.start fee) = (g, hs)) ∧
    (g.isActive = false → fee = ENTRY_FEE →
      applyOp (g, hs) (.start fee) = .ok (freshGame, hs)) := by
  refine ⟨?_, ?_, ?_⟩
  · intro h
    have he := applyOp_start_error (g, hs) fee .AlreadyActive (startGame_error_active g fee h)
    exact ⟨he, step_of_error _ _ _ he⟩
  · intro h hfee
    have he := applyOp_start_error (g, hs) fee .WrongFee (startGame_error_fee g fee h hfee)
    exact ⟨he, step_of_error _ _ _ he⟩
  · intro h hfee
    have hok : startGame g fee = .ok freshGame := (startGame_ok_iff g fee freshGame).mpr ⟨h, hfee, rfl⟩
    simp [applyOp, hok, Except.map]

theorem claim_C3_witness :
    (applyOp (freshGame, 7) (.start ENTRY_FEE) = .error .AlreadyActive ∧
      step (freshGame, 7) (.start ENTRY_FEE) = (freshGame, 7)) ∧
    (applyOp (GameState.zero, 7) (.start 5) = .error .WrongFee ∧
      step (GameState.zero, 7) (.start 5) = (GameState.zero, 7)) ∧
    applyOp (GameState.zero, 7) (.start ENTRY_FEE) = .ok (freshGame, 7) :=
  ⟨(claim_C3 freshGame 7 ENTRY_FEE).1 rfl,
   (claim_C3 GameState.zero 7 5).2.1 rfl (by decide),
   (claim_C3 GameState.zero 7 ENTRY_FEE).2.2 rfl rfl⟩

/-- C2: with an active game, round within bounds and the cap not reached,
the k-th pump (`pumpCount` goes from `k - 1` to `k`) succeeds and adds
exactly `10 * 2 ^ (k - 1)` to `pendingPoints`; a pump at the cap
(`pumpCount ≥ 2`) fails with `PumpCapReached` and a pump with no active
game fails with `NoActiveGame`, both leaving the state unchanged. -/
theorem claim_C2 (g : GameState) (hs k : Nat) :
    (g.isActive = true → g.currentRound ≤ MAX_ROUNDS → g.pumpCount + 1 = k →
      g.pumpCount < 2 →
      pumpBalloon g = .ok { g with pumpCount := k, pendingPoints := g.pendingPoints + 10 * 2 ^ (k - 1) }) ∧
    (g.isActive = true → g.currentRound ≤ MAX_ROUNDS → ¬ g.pumpCount < 2 →
      pumpBalloon g = .error .PumpCapReached ∧ step (g, hs) .pump = (g, hs)) ∧
    (g.isActive = false →
      pumpBalloon g = .error .NoActiveGame ∧ step (g, hs) .pump = (g, hs)) := by
  refine ⟨?_, ?_, ?_⟩
  · intro h1 h2 hk h3
    subst hk
    have := (pumpBalloon_ok_iff g _).mpr ⟨h1, h2, h3, rfl⟩
    simpa using this
  · intro h1 h2 h3
    have he := pumpBalloon_error_cap g h1 h2 h3
    exact ⟨he, step_of_error _ _ _ (applyOp_pump_error (g, hs) _ he)⟩
  · intro h
    have he := pumpBalloon_error_inactive g h
    exact ⟨he, step_of_error _ _ _ (applyOp_pump_error (g, hs) _ he)⟩

theorem claim_C2_witness :
    pumpBalloon freshGame = .ok (⟨1, 1, 10, 0, true⟩ : GameState) ∧
    pumpBalloon ⟨1, 1, 10, 0, true⟩ = .ok (⟨1, 2, 30, 0, true⟩ : GameState) ∧
    (pumpBalloon ⟨1, 2, 30, 0, true⟩ = .error .PumpCapReached ∧
      step ((⟨1, 2, 30, 0, true⟩ : GameState), 0) .pump = (⟨1, 2, 30, 0, true⟩, 0)) ∧
    pumpBalloon GameState.zero = .error .NoActiveGame := by
  refine ⟨?_, ?_, ?_, ?_⟩
  · simpa using (claim_C2 freshGame 0 1).1 rfl (by decide) rfl (by decide)
  · simpa using (claim_C2 ⟨1, 1, 10, 0, true⟩ 0 2).1 rfl (by decide) rfl (by decide)
  · exact (claim_C2 ⟨1, 2, 30, 0, true⟩ 0 3).2.1 rfl (by decide) (by decide)
  · exact ((claim_C2 GameState.zero 0 0).2.2 rfl).1

/-- C8: banking with `pumpCount = 0` on an active game always fails with
`NothingToBank` and leaves the state unchanged; in particular it fails right
after `startGame` and right after a prior bank that left the game active
(before any pump of the new round); and a bank never succeeds when
`pumpCount = 0`. -/
theorem claim_C8 (g g0 : GameState) (hs fee : Nat) (p : GameState × Nat) :
    (g.isActive = true → g.pumpCount = 0 →
      collectPoints g hs = .error .NothingToBank ∧ step (g, hs) .bank = (g, hs)) ∧
    (startGame g fee = .ok g0 → collectPoints g0 hs = .error .NothingToBank) ∧
    (collectPoints g hs = .ok p → p.1.isActive = true →
      collectPoints p.1 p.2 = .error .NothingToBank) ∧
    (g.pumpCount = 0 → collectPoints g hs ≠ .ok p) := by
  refine ⟨?_, ?_, ?_, ?_⟩
  · intro h1 h2
    have he := collectPoints_error_nothing g hs h1 h2
    refine ⟨he, step_of_error _ _ .NothingToBank ?_⟩
    simp [applyOp, he]

  · intro h
    obtain ⟨-, -, hg0⟩ := (startGame_ok_iff g fee g0).mp h
    subst hg0
    exact collectPoints_error_nothing freshGame hs rfl rfl
  · intro h hact
    obtain ⟨h1, -, hcase⟩ := (collectPoints_ok_iff g hs p).mp h
    rcases hcase with ⟨-, hp⟩ | ⟨-, hp⟩
    · rw [hp]
      exact collectPoints_error_nothing _ _ (by rw [hp] at hact; exact hact) rfl
    · rw [hp] at hact
      simp [endGame] at hact
  · intro h0 hok
    obtain ⟨-, h2, -⟩ := (collectPoints_ok_iff g hs p).mp hok
    omega

theorem claim_C8_witness :
    (collectPoints freshGame 7 = .error .NothingToBank ∧
      step (freshGame, 7) .bank = (freshGame, 7)) ∧
    collectPoints ⟨2, 0, 0, 10, true⟩ 7 = .error .NothingToBank :=
  ⟨(claim_C8 freshGame freshGame 7 ENTRY_FEE (freshGame, 7)).1 rfl rfl,
   (claim_C8 ⟨1, 1, 10, 0, true⟩ freshGame 7 ENTRY_FEE
     ((⟨2, 0, 0, 10, true⟩ : GameState), 7)).2.2.1 rfl rfl⟩

theorem applyOp_bank (s : PState) : applyOp s .bank = collectPoints s.1 s.2 := rfl

theorem applyOp_start (s : PState) (fee : Nat) :
    applyOp s (.start fee) = Except.map (fun g => (g, s.2)) (startGame s.1 fee) := rfl

theorem applyOp_pump (s : PState) :
    applyOp s .pump = Except.map (fun g => (g, s.2)) (pumpBalloon s.1) := rfl

theorem except_map_ok (e : Except GameError GameState) (hs : Nat) (p : PState)
    (h : Except.map (fun g => (g, hs)) e = .ok p) : ∃ g, e = .ok g ∧ p = (g, hs) := by
  cases e with
  | error err => simp [Except.map] at h
  | ok g =>
    simp [Except.map] at h
    exact ⟨g, rfl, h.symm⟩

/-- C4: a successful bank from round `MAX_ROUNDS` leaves the game inactive;
from any inactive state both `pumpBalloon` and `collectPoints` fail with
`NoActiveGame` and leave the state unchanged; and the only operation that
can turn `isActive` back on is a `startGame`. -/
theorem claim_C4 (g : GameState) (hs : Nat) (p : GameState × Nat) (s : PState) (op : Op) :
    (g.currentRound = MAX_ROUNDS → collectPoints g hs = .ok p → p.1.isActive = false) ∧
    (g.isActive = false →
      pumpBalloon g = .error .NoActiveGame ∧
      collectPoints g hs = .error .NoActiveGame ∧
      step (g, hs) .pump = (g, hs) ∧ step (g, hs) .bank = (g, hs)) ∧
    (s.1.isActive = false → (step s op).1.isActive = true → ∃ fee, op = .start fee) := by
  refine ⟨?_, ?_, ?_⟩
  · intro hr hok
    obtain ⟨-, -, hcase⟩ := (collectPoints_ok_iff g hs p).mp hok
    rcases hcase with ⟨hlt, -⟩ | ⟨-, hp⟩
    · rw [hr] at hlt
      exact absurd hlt (by simp)
    · rw [hp]
      simp [endGame]
  · intro h
    have hp := pumpBalloon_error_inactive g h
    have hb := collectPoints_error_inactive g hs h
    exact ⟨hp, hb, step_of_error _ _ _ (applyOp_pump_error (g, hs) _ hp),
      step_of_error _ _ .NoActiveGame (by rw [applyOp_bank]; exact hb)⟩
  · intro hinact hact
    cases op with
    | start fee => exact ⟨fee, rfl⟩
    | pump =>
      have he := pumpBalloon_error_inactive s.1 hinact
      rw [step_of_error s .pump .NoActiveGame (applyOp_pump_error s _ he)] at hact
      rw [hinact] at hact
      cases hact
    | bank =>
      have he := collectPoints_error_inactive s.1 s.2 hinact
      rw [step_of_error s .bank .NoActiveGame (by rw [applyOp_bank]; exact he)] at hact
      rw [hinact] at hact
      cases hact

theorem claim_C4_witness :
    ((⟨5, 1, 10, 50, false⟩, 50) : PState).1.isActive = false ∧
    (pumpBalloon ⟨5, 1, 10, 50, false⟩ = .error .NoActiveGame ∧
      collectPoints ⟨5, 1, 10, 50, false⟩ 50 = .error .NoActiveGame ∧
      step ((⟨5, 1, 10, 50, false⟩ : GameState), 50) .pump = (⟨5, 1, 10, 50, false⟩, 50) ∧
      step ((⟨5, 1, 10, 50, false⟩ : GameState), 50) .bank = (⟨5, 1, 10, 50, false⟩, 50)) ∧
    (∃ fee, Op.start ENTRY_FEE = Op.start fee) :=
  ⟨(claim_C4 ⟨5, 1, 10, 40, true⟩ 0 ((⟨5, 1, 10, 50, false⟩ : GameState), 50)
      initState .pump).1 rfl rfl,
   (claim_C4 ⟨5, 1, 10, 50, false⟩ 50 ((⟨5, 1, 10, 50, false⟩ : GameState), 50)
      initState .pump).2.1 rfl,
   (claim_C4 GameState.zero 0 (freshGame, 0) initState (.start ENTRY_FEE)).2.2 rfl
     (by decide)⟩

/-- C5 counterexample: a full game banking one pump per round ends (the
round-5 boundary is crossed, `isActive` becomes false), yet `pumpCount`
and `pendingPoints` are NOT reset to 0 there — `_endGame` leaves them
untouched. -/
theorem claim_C5_cex :
    (run initState [.start ENTRY_FEE, .pump, .bank, .pump, .bank, .pump, .bank, .pump, .bank,
      .pump, .bank]).1.isActive = false ∧
    (run initState [.start ENTRY_FEE, .pump, .bank, .pump, .bank, .pump, .bank, .pump, .bank,
      .pump, .bank]).1.pumpCount ≠ 0 ∧
    (run initState [.start ENTRY_FEE, .pump, .bank, .pump, .bank, .pump, .bank, .pump, .bank,
      .pump, .bank]).1.pendingPoints ≠ 0 := by
  decide

/-- C5 amended: a bank from a round below `MAX_ROUNDS` resets `pumpCount`
and `pendingPoints` to 0, and so does `startGame`; a pump only increments
`pumpCount`; but the bank that ends round `MAX_ROUNDS` (game completion)
resets neither — it leaves both fields at their pre-bank values and only
clears `isActive`. -/
theorem claim_C5_amended (g g' : GameState) (hs fee : Nat) (p : GameState × Nat) :
    (collectPoints g hs = .ok p → g.currentRound < MAX_ROUNDS →
      p.1.pumpCount = 0 ∧ p.1.pendingPoints = 0) ∧
    (collectPoints g hs = .ok p → ¬ g.currentRound < MAX_ROUNDS →
      p.1.pumpCount = g.pumpCount ∧ p.1.pendingPoints = g.pendingPoints ∧
      p.1.isActive = false) ∧
    (pumpBalloon g = .ok g' → g'.pumpCount = g.pumpCount + 1) ∧
    (startGame g fee = .ok g' → g'.pumpCount = 0 ∧ g'.pendingPoints = 0) := by
  refine ⟨?_, ?_, ?_, ?_⟩
  · intro hok hlt
    obtain ⟨-, -, hcase⟩ := (collectPoints_ok_iff g hs p).mp hok
    rcases hcase with ⟨-, hp⟩ | ⟨hge, -⟩
    · rw [hp]
      simp [advanceGame]
    · exact absurd hlt hge
  · intro hok hge
    obtain ⟨-, -, hcase⟩ := (collectPoints_ok_iff g hs p).mp hok
    rcases hcase with ⟨hlt, -⟩ | ⟨-, hp⟩
    · exact absurd hlt hge
    · rw [hp]
      simp [endGame]
  · intro hok
    obtain ⟨-, -, -, hg⟩ := (pumpBalloon_ok_iff g g').mp hok
    rw [hg]
  · intro hok
    obtain ⟨-, -, hg⟩ := (startGame_ok_iff g fee g').mp hok
    rw [hg]
    exact ⟨rfl, rfl⟩

theorem claim_C5_amended_witness :
    (((⟨3, 0, 0, 20, true⟩ : GameState), 0) : PState).1.pumpCount = 0 ∧
    (((⟨3, 0, 0, 20, true⟩ : GameState), 0) : PState).1.pendingPoints = 0 ∧
    (((⟨5, 2, 30, 50, false⟩ : GameState), 50) : PState).1.pumpCount =
      (⟨5, 2, 30, 20, true⟩ : GameState).pumpCount ∧
    (((⟨5, 2, 30, 50, false⟩ : GameState), 50) : PState).1.isActive = false ∧
    (⟨1, 1, 10, 0, true⟩ : GameState).pumpCount = freshGame.pumpCount + 1 ∧
    freshGame.pumpCount = 0 ∧ freshGame.pendingPoints = 0 := by
  refine ⟨?_, ?_, ?_, ?_, ?_, ?_⟩
  · exact ((claim_C5_amended ⟨2, 1, 10, 10, true⟩ freshGame 0 ENTRY_FEE
      ((⟨3, 0, 0, 20, true⟩ : GameState), 0)).1 rfl (by decide)).1
  · exact ((claim_C5_amended ⟨2, 1, 10, 10, true⟩ freshGame 0 ENTRY_FEE
      ((⟨3, 0, 0, 20, true⟩ : GameState), 0)).1 rfl (by decide)).2
  · exact ((claim_C5_amended ⟨5, 2, 30, 20, true⟩ freshGame 0 ENTRY_FEE
      ((⟨5, 2, 30, 50, false⟩ : GameState), 50)).2.1 rfl (by decide)).1
  · exact ((claim_C5_amended ⟨5, 2, 30, 20, true⟩ freshGame 0 ENTRY_FEE
      ((⟨5, 2, 30, 50, false⟩ : GameState), 50)).2.1 rfl (by decide)).2.2
  · exact (claim_C5_amended freshGame ⟨1, 1, 10, 0, true⟩ 0 ENTRY_FEE
      (freshGame, 0)).2.2.1 rfl
  · exact (claim_C5_amended GameState.zero freshGame 0 ENTRY_FEE
      (freshGame, 0)).2.2.2 rfl

theorem step_snd_mono (s : PState) (op : Op) : s.2 ≤ (step s op).2 := by
  cases hap : applyOp s op with
  | error e => rw [step_of_error s op e hap]
  | ok p =>
    rw [step_of_ok s p op hap]
    cases op with
    | start fee =>
      rw [applyOp_start] at hap
      obtain ⟨g2, -, hp⟩ := except_map_ok _ _ _ hap
      simp [hp]
    | pump =>
      rw [applyOp_pump] at hap
      obtain ⟨g2, -, hp⟩ := except_map_ok _ _ _ hap
      simp [hp]
    | bank =>
      rw [applyOp_bank] at hap
      obtain ⟨-, -, hcase⟩ := (collectPoints_ok_iff s.1 s.2 p).mp hap
      rcases hcase with ⟨-, hp⟩ | ⟨-, hp⟩
      · simp [hp]
      · by_cases hgt : s.1.totalScore + s.1.pendingPoints > s.2
        · rw [hp, if_pos hgt]
          exact Nat.le_of_lt hgt
        · rw [hp, if_neg hgt]

theorem run_snd_mono (ops : List Op) : ∀ s : PState, s.2 ≤ (run s ops).2 := by
  induction ops with
  | nil => intro s; exact Nat.le_refl _
  | cons op ops ih =>
    intro s
    exact Nat.le_trans (step_snd_mono s op) (ih (step s op))

/-- C9: the stored high score never decreases under any operation or any
sequence of operations; and a successful operation changes it only when it
is a bank from round `MAX_ROUNDS` (game completion) whose final
`totalScore` strictly exceeds the stored value, in which case the new value
is that total. -/
theorem claim_C9 (s : PState) (op : Op) (ops : List Op) (g : GameState) (hs : Nat)
    (p : PState) :
    s.2 ≤ (step s op).2 ∧
    s.2 ≤ (run s ops).2 ∧
    (applyOp (g, hs) op = .ok p → p.2 ≠ hs →
      op = .bank ∧ ¬ g.currentRound < MAX_ROUNDS ∧ p.1.isActive = false ∧
      hs < p.2 ∧ p.2 = g.totalScore + g.pendingPoints) := by
  refine ⟨step_snd_mono s op, run_snd_mono ops s, ?_⟩
  intro hok hne
  cases op with
  | start fee =>
    rw [applyOp_start] at hok
    obtain ⟨g2, -, hp⟩ := except_map_ok _ _ _ hok
    rw [hp] at hne
    exact absurd rfl hne
  | pump =>
    rw [applyOp_pump] at hok
    obtain ⟨g2, -, hp⟩ := except_map_ok _ _ _ hok
    rw [hp] at hne
    exact absurd rfl hne
  | bank =>
    rw [applyOp_bank] at hok
    obtain ⟨-, -, hcase⟩ := (collectPoints_ok_iff g hs p).mp hok
    rcases hcase with ⟨-, hp⟩ | ⟨hge, hp⟩
    · rw [hp] at hne
      exact absurd rfl hne
    · by_cases hgt : g.totalScore + g.pendingPoints > hs
      · rw [hp, if_pos hgt]
        exact ⟨rfl, hge, by simp [endGame], hgt, rfl⟩
      · rw [hp, if_neg hgt] at hne
        exact absurd rfl hne

theorem claim_C9_witness :
    (0 : Nat) ≤ (step initState (.start ENTRY_FEE)).2 ∧
    (0 : Nat) ≤ (run initState [.start ENTRY_FEE, .pump, .bank]).2 ∧
    (Op.bank = Op.bank ∧ ¬ (5 : Nat) < MAX_ROUNDS ∧
      (((⟨5, 1, 10, 50, false⟩ : GameState), 50) : PState).1.isActive = false ∧
      (0 : Nat) < (((⟨5, 1, 10, 50, false⟩ : GameState), 50) : PState).2 ∧
      (((⟨5, 1, 10, 50, false⟩ : GameState), 50) : PState).2 =
        (⟨5, 1, 10, 40, true⟩ : GameState).totalScore +
          (⟨5, 1, 10, 40, true⟩ : GameState).pendingPoints) :=
  ⟨(claim_C9 initState (.start ENTRY_FEE) [] GameState.zero 0 initState).1,
   (claim_C9 initState .bank [.start ENTRY_FEE, .pump, .bank] GameState.zero 0 initState).2.1,
   (claim_C9 initState .bank [] ⟨5, 1, 10, 40, true⟩ 0
      ((⟨5, 1, 10, 50, false⟩ : GameState), 50)).2.2 rfl (by decide)⟩

/-! ### Banked-points accounting (C1) -/

theorem bankedAmounts_cons_pump (s : PState) (ops : List Op) :
    bankedAmounts s (.pump :: ops) = bankedAmounts (step s .pump) ops := rfl

theorem bankedAmounts_cons_bank_ok (s : PState) (p : PState) (ops : List Op)
    (hc : collectPoints s.1 s.2 = .ok p) :
    bankedAmounts s (.bank :: ops) = s.1.pendingPoints :: bankedAmounts p ops := by
  simp [bankedAmounts, hc]

theorem bankedAmounts_cons_bank_error (s : PState) (e : GameError) (ops : List Op)
    (hc : collectPoints s.1 s.2 = .error e) :
    bankedAmounts s (.bank :: ops) = bankedAmounts s ops := by
  simp [bankedAmounts, hc]

theorem step_pump_total (s : PState) :
    (step s .pump).1.totalScore = s.1.totalScore := by
  cases hap : pumpBalloon s.1 with
  | error e => rw [step_of_error s .pump e (applyOp_pump_error s e hap)]
  | ok g' =>
    have hok : applyOp s .pump = .ok (g', s.2) := by
      rw [applyOp_pump, hap]
      rfl
    rw [step_of_ok s (g', s.2) .pump hok]
    obtain ⟨-, -, -, hg⟩ := (pumpBalloon_ok_iff s.1 g').mp hap
    rw [hg]

theorem collect_ok_total (g : GameState) (hs : Nat) (p : GameState × Nat)
    (hok : collectPoints g hs = .ok p) :
    p.1.totalScore = g.totalScore + g.pendingPoints := by
  obtain ⟨-, -, hcase⟩ := (collectPoints_ok_iff g hs p).mp hok
  rcases hcase with ⟨-, hp⟩ | ⟨-, hp⟩
  · rw [hp]
    rfl
  · rw [hp]
    rfl

theorem run_totalScore (ops : List Op) :
    ∀ s : PState, noStart ops = true →
      (run s ops).1.totalScore = s.1.totalScore + (bankedAmounts s ops).sum := by
  induction ops with
  | nil =>
    intro s h
    simp [run, bankedAmounts]
  | cons op ops ih =>
    intro s hns
    have hns' : noStart ops = true := by
      simp only [noStart, List.all_cons, Bool.and_eq_true] at hns
      exact hns.2
    cases op with
    | start fee =>
      simp [noStart] at hns
    | pump =>
      have hrun : run s (.pump :: ops) = run (step s .pump) ops := rfl
      rw [hrun, bankedAmounts_cons_pump, ih _ hns', step_pump_total]
    | bank =>
      cases hc : collectPoints s.1 s.2 with
      | error e =>
        have hst : step s .bank = s := step_of_error _ _ e (by rw [applyOp_bank]; exact hc)
        have hrun : run s (.bank :: ops) = run (step s .bank) ops := rfl
        rw [hrun, hst, bankedAmounts_cons_bank_error s e ops hc, ih _ hns']
      | ok p =>
        have hst : step s .bank = p := step_of_ok _ _ _ (by rw [applyOp_bank]; exact hc)
        have hrun : run s (.bank :: ops) = run (step s .bank) ops := rfl
        rw [hrun, hst, bankedAmounts_cons_bank_ok s p ops hc, ih _ hns',
          collect_ok_total s.1 s.2 p hc]
        simp [Nat.add_assoc]

/-- C1: starting from any freshly started game, running any sequence of
pump and bank transactions (no further start), the final `totalScore`
equals exactly the sum of the `pendingPoints` amounts committed by the
successful banks along the way — no other operation contributes points and
no banked points are lost.  In particular this holds for a complete game
banked through round 5. -/
theorem claim_C1 (g g0 : GameState) (hs fee : Nat) (ops : List Op)
    (hstart : startGame g fee = .ok g0) (hops : noStart ops = true) :
    (run (g0, hs) ops).1.totalScore = (bankedAmounts (g0, hs) ops).sum := by
  obtain ⟨-, -, hg0⟩ := (startGame_ok_iff g fee g0).mp hstart
  rw [run_totalScore ops (g0, hs) hops, hg0]
  simp [freshGame]

theorem claim_C1_witness :
    startGame GameState.zero ENTRY_FEE = .ok freshGame ∧
    noStart [.pump, .bank, .pump, .pump, .bank, .pump, .bank, .pump, .bank, .pump, .bank]
      = true ∧
    (run (freshGame, 0) [.pump, .bank, .pump, .pump, .bank, .pump, .bank, .pump, .bank,
      .pump, .bank]).1.totalScore =
      (bankedAmounts (freshGame, 0) [.pump, .bank, .pump, .pump, .bank, .pump, .bank,
        .pump, .bank, .pump, .bank]).sum :=
  ⟨rfl, by decide,
   claim_C1 GameState.zero freshGame 0 ENTRY_FEE
     [.pump, .bank, .pump, .pump, .bank, .pump, .bank, .pump, .bank, .pump, .bank]
     rfl (by decide)⟩

/-! ### Round monotonicity and bounds (C6) -/

theorem bank_at_max_inactive (g : GameState) (hs : Nat) (p : GameState × Nat)
    (hr : g.currentRound = MAX_ROUNDS) (hok : collectPoints g hs = .ok p) :
    p.1.isActive = false := by
  obtain ⟨-, -, hcase⟩ := (collectPoints_ok_iff g hs p).mp hok
  rcases hcase with ⟨hlt, -⟩ | ⟨-, hp⟩
  · rw [hr] at hlt
    exact absurd hlt (by simp)
  · rw [hp]
    simp [endGame]

theorem step_round_mono (s : PState) (op : Op) (h : s.1.isActive = true) :
    s.1.currentRound ≤ (step s op).1.currentRound := by
  cases hap : applyOp s op with
  | error e => rw [step_of_error s op e hap]
  | ok p =>
    rw [step_of_ok s p op hap]
    cases op with
    | start fee =>
      rw [applyOp_start] at hap
      obtain ⟨g2, hg, -⟩ := except_map_ok _ _ _ hap
      obtain ⟨hact, -, -⟩ := (startGame_ok_iff s.1 fee g2).mp hg
      rw [h] at hact
      cases hact
    | pump =>
      rw [applyOp_pump] at hap
      obtain ⟨g2, hg, hp⟩ := except_map_ok _ _ _ hap
      obtain ⟨-, -, -, hg2⟩ := (pumpBalloon_ok_iff s.1 g2).mp hg
      simp [hp, hg2]
    | bank =>
      rw [applyOp_bank] at hap
      obtain ⟨-, -, hcase⟩ := (collectPoints_ok_iff s.1 s.2 p).mp hap
      rcases hcase with ⟨-, hp⟩ | ⟨-, hp⟩
      · simp [hp, advanceGame]
      · simp [hp, endGame]

theorem run_round_mono (ops : List Op) :
    ∀ s : PState, activeAlong s ops = true →
      s.1.currentRound ≤ (run s ops).1.currentRound := by
  induction ops with
  | nil =>
    intro s h
    exact Nat.le_refl _
  | cons op ops ih =>
    intro s h
    simp only [activeAlong, Bool.and_eq_true] at h
    exact Nat.le_trans (step_round_mono s op h.1) (ih (step s op) h.2)

theorem step_round_bounds (s : PState) (op : Op)
    (h : s.1.isActive = true → 1 ≤ s.1.currentRound ∧ s.1.currentRound ≤ MAX_ROUNDS) :
    (step s op).1.isActive = true →
      1 ≤ (step s op).1.currentRound ∧ (step s op).1.currentRound ≤ MAX_ROUNDS := by
  cases hap : applyOp s op with
  | error e =>
    rw [step_of_error s op e hap]
    exact h
  | ok p =>
    rw [step_of_ok s p op hap]
    cases op with
    | start fee =>
      rw [applyOp_start] at hap
      obtain ⟨g2, hg, hp⟩ := except_map_ok _ _ _ hap
      obtain ⟨-, -, hg2⟩ := (startGame_ok_iff s.1 fee g2).mp hg
      intro _
      rw [hp, hg2]
      exact ⟨Nat.le_refl 1, by simp [freshGame, MAX_ROUNDS]⟩
    | pump =>
      rw [applyOp_pump] at hap
      obtain ⟨g2, hg, hp⟩ := except_map_ok _ _ _ hap
      obtain ⟨hact, -, -, hg2⟩ := (pumpBalloon_ok_iff s.1 g2).mp hg
      intro _
      rw [hp, hg2]
      exact h hact
    | bank =>
      rw [applyOp_bank] at hap
      obtain ⟨hact, -, hcase⟩ := (collectPoints_ok_iff s.1 s.2 p).mp hap
      rcases hcase with ⟨hlt, hp⟩ | ⟨-, hp⟩
      · intro _
        rw [hp]
        have hb := h hact
        simp only [advanceGame]
        constructor
        · omega
        · omega
      · intro hact'
        rw [hp] at hact'
        simp [endGame] at hact'

theorem run_round_bounds (ops : List Op) :
    ∀ s : PState,
      (s.1.isActive = true → 1 ≤ s.1.currentRound ∧ s.1.currentRound ≤ MAX_ROUNDS) →
      (run s ops).1.isActive = true →
        1 ≤ (run s ops).1.currentRound ∧ (run s ops).1.currentRound ≤ MAX_ROUNDS := by
  induction ops with
  | nil =>
    intro s h
    exact h
  | cons op ops ih =>
    intro s h
    exact ih (step s op) (step_round_bounds s op h)

/-- C6: while a game stays active, `currentRound` never decreases — both for
a single operation from an active state and along any run whose intermediate
states are all active — and in every state reachable from the initial
storage an active game has `1 ≤ currentRound ≤ MAX_ROUNDS`; the bank applied
in round `MAX_ROUNDS` deactivates the game. -/
theorem claim_C6 (s : PState) (op : Op) (ops ops2 : List Op) (g : GameState) (hs : Nat)
    (p : GameState × Nat) :
    (s.1.isActive = true → s.1.currentRound ≤ (step s op).1.currentRound) ∧
    (activeAlong s ops = true → s.1.currentRound ≤ (run s ops).1.currentRound) ∧
    ((run initState ops2).1.isActive = true →
      1 ≤ (run initState ops2).1.currentRound ∧
      (run initState ops2).1.currentRound ≤ MAX_ROUNDS) ∧
    (g.currentRound = MAX_ROUNDS → collectPoints g hs = .ok p → p.1.isActive = false) := by
  refine ⟨fun h => step_round_mono s op h, fun h => run_round_mono ops s h, ?_, ?_⟩
  · exact run_round_bounds ops2 initState (fun h => by cases h)
  · exact fun hr hok => bank_at_max_inactive g hs p hr hok

theorem claim_C6_witness :
    ((freshGame, 0) : PState).1.currentRound ≤
      (step ((freshGame, 0) : PState) .pump).1.currentRound ∧
    ((freshGame, 0) : PState).1.currentRound ≤
      (run ((freshGame, 0) : PState) [.pump, .bank, .pump]).1.currentRound ∧
    (1 ≤ (run initState [.start ENTRY_FEE, .pump, .bank]).1.currentRound ∧
      (run initState [.start ENTRY_FEE, .pump, .bank]).1.currentRound ≤ MAX_ROUNDS) ∧
    (((⟨5, 2, 30, 60, false⟩ : GameState), 60) : PState).1.isActive = false := by
  refine ⟨?_, ?_, ?_, ?_⟩
  · exact (claim_C6 (freshGame, 0) .pump [] [] GameState.zero 0 (freshGame, 0)).1 rfl
  · exact (claim_C6 (freshGame, 0) .pump [.pump, .bank, .pump] [] GameState.zero 0
      (freshGame, 0)).2.1 (by decide)
  · exact (claim_C6 (freshGame, 0) .pump [] [.start ENTRY_FEE, .pump, .bank] GameState.zero 0
      (freshGame, 0)).2.2.1 (by decide)
  · exact (claim_C6 (freshGame, 0) .pump [] [] ⟨5, 2, 30, 30, true⟩ 0
      ((⟨5, 2, 30, 60, false⟩ : GameState), 60)).2.2.2 rfl rfl

/-! ### Pending-points invariant (C10) -/

theorem step_pending_inv (s : PState) (op : Op)
    (h : s.1.isActive = true →
      s.1.pendingPoints = 10 * (2 ^ s.1.pumpCount - 1) ∧ s.1.pumpCount ≤ 2) :
    (step s op).1.isActive = true →
      (step s op).1.pendingPoints = 10 * (2 ^ (step s op).1.pumpCount - 1) ∧
      (step s op).1.pumpCount ≤ 2 := by
  cases hap : applyOp s op with
  | error e =>
    rw [step_of_error s op e hap]
    exact h
  | ok p =>
    rw [step_of_ok s p op hap]
    cases op with
    | start fee =>
      rw [applyOp_start] at hap
      obtain ⟨g2, hg, hp⟩ := except_map_ok _ _ _ hap
      obtain ⟨-, -, hg2⟩ := (startGame_ok_iff s.1 fee g2).mp hg
      intro _
      rw [hp, hg2]
      exact ⟨rfl, by simp [freshGame]⟩
    | pump =>
      rw [applyOp_pump] at hap
      obtain ⟨g2, hg, hp⟩ := except_map_ok _ _ _ hap
      obtain ⟨hact, -, hcap, hg2⟩ := (pumpBalloon_ok_iff s.1 g2).mp hg
      intro _
      obtain ⟨hpend, -⟩ := h hact
      rw [hp, hg2]
      constructor
      · simp only
        have hpow : 2 ^ (s.1.pumpCount + 1) = 2 * 2 ^ s.1.pumpCount := by
          rw [Nat.pow_succ]
          omega
        have hone : 1 ≤ 2 ^ s.1.pumpCount := Nat.one_le_two_pow
        rw [hpend, hpow]
        omega
      · simp only
        omega
    | bank =>
      rw [applyOp_bank] at hap
      obtain ⟨hact, -, hcase⟩ := (collectPoints_ok_iff s.1 s.2 p).mp hap
      rcases hcase with ⟨-, hp⟩ | ⟨-, hp⟩
      · intro _
        rw [hp]
        simp [advanceGame]
      · intro hact'
        rw [hp] at hact'
        simp [endGame] at hact'

theorem run_pending_inv (ops : List Op) :
    ∀ s : PState,
      (s.1.isActive = true →
        s.1.pendingPoints = 10 * (2 ^ s.1.pumpCount - 1) ∧ s.1.pumpCount ≤ 2) →
      (run s ops).1.isActive = true →
        (run s ops).1.pendingPoints = 10 * (2 ^ (run s ops).1.pumpCount - 1) ∧
        (run s ops).1.pumpCount ≤ 2 := by
  induction ops with
  | nil =>
    intro s h
    exact h
  | cons op ops ih =>
    intro s h
    exact ih (step s op) (step_pending_inv s op h)

/-- C10: in every state reachable from the initial storage in which the game
is active, `pendingPoints` is determined by `pumpCount` as
`10 * (2 ^ pumpCount - 1)`, `pumpCount` never exceeds the cap 2, and hence
`pendingPoints` is always 0, 10 or 30 (in particular never exceeds 30). -/
theorem claim_C10 (ops : List Op) (h : (run initState ops).1.isActive = true) :
    (run initState ops).1.pendingPoints =
      10 * (2 ^ (run initState ops).1.pumpCount - 1) ∧
    (run initState ops).1.pumpCount ≤ 2 ∧
    ((run initState ops).1.pendingPoints = 0 ∨ (run initState ops).1.pendingPoints = 10 ∨
      (run initState ops).1.pendingPoints = 30) := by
  obtain ⟨hpend, hcap⟩ := run_pending_inv ops initState (fun hact => by cases hact) h
  refine ⟨hpend, hcap, ?_⟩
  rcases Nat.lt_or_ge (run initState ops).1.pumpCount 1 with h0 | h1
  · left
    have hc0 : (run initState ops).1.pumpCount = 0 := by omega
    rw [hpend, hc0]
    decide
  · rcases Nat.lt_or_ge (run initState ops).1.pumpCount 2 with h1' | h2
    · right; left
      have hc1 : (run initState ops).1.pumpCount = 1 := by omega
      rw [hpend, hc1]
      decide
    · right; right
      have hc2 : (run initState ops).1.pumpCount = 2 := by omega
      rw [hpend, hc2]
      decide

theorem claim_C10_witness :
    (run initState [.start ENTRY_FEE, .pump, .pump]).1.isActive = true ∧
    ((run initState [.start ENTRY_FEE, .pump, .pump]).1.pendingPoints =
      10 * (2 ^ (run initState [.start ENTRY_FEE, .pump, .pump]).1.pumpCount - 1) ∧
     (run initState [.start ENTRY_FEE, .pump, .pump]).1.pumpCount ≤ 2 ∧
     ((run initState [.start ENTRY_FEE, .pump, .pump]).1.pendingPoints = 0 ∨
      (run initState [.start ENTRY_FEE, .pump, .pump]).1.pendingPoints = 10 ∨
      (run initState [.start ENTRY_FEE, .pump, .pump]).1.pendingPoints = 30)) :=
  ⟨by decide, claim_C10 [.start ENTRY_FEE, .pump, .pump] (by decide)⟩

/-! helper list lemmas -/

theorem getD_append_len {α : Type} [Inhabited α] (pre : List α) (c : α) (rest : List α)
    (d : α) : (pre ++ (c :: rest)).getD pre.length d = c := by
  induction pre with
  | nil => simp
  | cons x pre ih => simpa using ih

theorem getD_append_len' {α : Type} [Inhabited α] (pre : List α) (c : α) (rest : List α)
    (d : α) (n : Nat) (h : n = pre.length) : (pre ++ (c :: rest)).getD n d = c := by
  rw [h]
  exact getD_append_len pre c rest d

theorem get?_append_len {α : Type} (pre : List α) (c : α) (rest : List α) :
    (pre ++ (c :: rest)).get? pre.length = some c := by
  induction pre with
  | nil => rfl
  | cons x pre ih => exact ih

theorem get?_append_len' {α : Type} (pre : List α) (c : α) (rest : List α) (n : Nat)
    (h : n = pre.length) : (pre ++ (c :: rest)).get? n = some c := by
  rw [h]
  exact get?_append_len pre c rest

theorem set_append_len {α : Type} (pre : List α) (c x : α) (rest : List α) :
    (pre ++ (c :: rest)).set pre.length x = pre ++ (x :: rest) := by
  induction pre with
  | nil => simp
  | cons y pre ih => simp

theorem set_append_len' {α : Type} (pre : List α) (c x : α) (rest : List α) (n : Nat)
    (h : n = pre.length) : (pre ++ (c :: rest)).set n x = pre ++ (x :: rest) := by
  rw [h]
  exact set_append_len pre c x rest

theorem lbSwap_eq_of_get (l : List (Nat × Nat)) (i j : Nat) (a b : Nat × Nat)
    (hi : l.get? i = some a) (hj : l.get? j = some b) :
    lbSwap l i j = (l.set i b).set j a := by
  unfold lbSwap
  rw [hi, hj]

theorem lbSwap_spec (pre mid suf : List (Nat × Nat)) (c x : Nat × Nat) :
    lbSwap (pre ++ (c :: (mid ++ (x :: suf)))) pre.length (pre.length + 1 + mid.length) =
      pre ++ (x :: (mid ++ (c :: suf))) := by
  have hre : pre ++ (c :: (mid ++ (x :: suf))) = (pre ++ (c :: mid)) ++ (x :: suf) := by
    simp
  have h1 : (pre ++ (c :: (mid ++ (x :: suf)))).get? pre.length = some c :=
    get?_append_len pre c (mid ++ (x :: suf))
  have h2 : (pre ++ (c :: (mid ++ (x :: suf)))).get? (pre.length + 1 + mid.length)
      = some x := by
    rw [hre]
    refine get?_append_len' (pre ++ (c :: mid)) x suf _ ?_
    simp only [List.length_append, List.length_cons]
    omega
  rw [lbSwap_eq_of_get _ _ _ c x h1 h2]
  rw [set_append_len pre c x (mid ++ (x :: suf))]
  have hre2 : pre ++ (x :: (mid ++ (x :: suf))) = (pre ++ (x :: mid)) ++ (x :: suf) := by
    simp
  rw [hre2]
  rw [set_append_len' (pre ++ (x :: mid)) x c suf _
    (by simp only [List.length_append, List.length_cons]; omega)]
  simp

/-! selectPass lemmas -/

theorem selectPass_snd_length (cur : Nat × Nat) (xs : List (Nat × Nat)) :
    (selectPass cur xs).2.length = xs.length := by
  induction xs generalizing cur with
  | nil => rfl
  | cons x xs ih =>
    by_cases hc : x.2 > cur.2
    · simp only [selectPass, if_pos hc]
      simp [ih]
    · simp only [selectPass, if_neg hc]
      simp [ih]

theorem selectPass_perm (cur : Nat × Nat) (xs : List (Nat × Nat)) :
    List.Perm ((selectPass cur xs).1 :: (selectPass cur xs).2) (cur :: xs) := by
  induction xs generalizing cur with
  | nil => exact List.Perm.refl _
  | cons x xs ih =>
    by_cases hc : x.2 > cur.2
    · simp only [selectPass, if_pos hc]
      exact (List.Perm.swap cur (selectPass x xs).1 (selectPass x xs).2).trans
        ((ih x).cons cur)
    · simp only [selectPass, if_neg hc]
      exact ((List.Perm.swap x (selectPass cur xs).1 (selectPass cur xs).2).trans
        ((ih cur).cons x)).trans (List.Perm.swap cur x xs)

theorem selectPass_max (cur : Nat × Nat) (xs : List (Nat × Nat)) :
    cur.2 ≤ (selectPass cur xs).1.2 ∧
      ∀ y ∈ (selectPass cur xs).2, y.2 ≤ (selectPass cur xs).1.2 := by
  induction xs generalizing cur with
  | nil =>
    refine ⟨Nat.le_refl _, ?_⟩
    intro y hy
    cases hy
  | cons x xs ih =>
    by_cases hc : x.2 > cur.2
    · simp only [selectPass, if_pos hc]
      refine ⟨Nat.le_trans (Nat.le_of_lt hc) (ih x).1, ?_⟩
      intro y hy
      rcases List.mem_cons.mp hy with h | h
      · rw [h]
        exact Nat.le_trans (Nat.le_of_lt hc) (ih x).1
      · exact (ih x).2 y h
    · simp only [selectPass, if_neg hc]
      refine ⟨(ih cur).1, ?_⟩
      intro y hy
      rcases List.mem_cons.mp hy with h | h
      · rw [h]
        exact Nat.le_trans (Nat.le_of_not_lt hc) (ih cur).1
      · exact (ih cur).2 y h

/-! selSort equations and properties -/

theorem selSort_cons (x : Nat × Nat) (xs : List (Nat × Nat)) :
    selSort (x :: xs) = (selectPass x xs).1 :: selSort ((selectPass x xs).2) := by
  show selSortFuel (x :: xs).length (x :: xs) = _
  simp only [List.length_cons, selSortFuel]
  rw [← selectPass_snd_length x xs]
  rfl

theorem selSort_perm_aux : ∀ (k : Nat) (l : List (Nat × Nat)), l.length ≤ k →
    List.Perm (selSort l) l := by
  intro k
  induction k with
  | zero =>
    intro l h
    have hl : l = [] := List.eq_nil_of_length_eq_zero (Nat.le_zero.mp h)
    subst hl
    exact List.Perm.refl _
  | succ k ih =>
    intro l h
    cases l with
    | nil => exact List.Perm.refl _
    | cons x xs =>
      rw [selSort_cons]
      have h2 : (selectPass x xs).2.length ≤ k := by
        rw [selectPass_snd_length]
        simpa using h
      exact ((ih _ h2).cons _).trans (selectPass_perm x xs)

theorem selSort_perm (l : List (Nat × Nat)) : List.Perm (selSort l) l :=
  selSort_perm_aux l.length l (Nat.le_refl _)

theorem selSort_sorted_aux : ∀ (k : Nat) (l : List (Nat × Nat)), l.length ≤ k →
    List.Pairwise (fun a b : Nat × Nat => b.2 ≤ a.2) (selSort l) := by
  intro k
  induction k with
  | zero =>
    intro l h
    have hl : l = [] := List.eq_nil_of_length_eq_zero (Nat.le_zero.mp h)
    subst hl
    exact List.Pairwise.nil
  | succ k ih =>
    intro l h
    cases l with
    | nil => exact List.Pairwise.nil
    | cons x xs =>
      rw [selSort_cons]
      have h2 : (selectPass x xs).2.length ≤ k := by
        rw [selectPass_snd_length]
        simpa using h
      refine List.Pairwise.cons ?_ (ih _ h2)
      intro y hy
      have hmem : y ∈ (selectPass x xs).2 := (selSort_perm _).mem_iff.mp hy
      exact (selectPass_max x xs).2 y hmem

theorem selSort_sorted (l : List (Nat × Nat)) :
    List.Pairwise (fun a b : Nat × Nat => b.2 ≤ a.2) (selSort l) :=
  selSort_sorted_aux l.length l (Nat.le_refl _)

/-! the loop form equals the structural form -/

theorem lbInner_eq (suf : List (Nat × Nat)) :
    ∀ (pre mid : List (Nat × Nat)) (cur : Nat × Nat),
      lbInner pre.length (List.range' (pre.length + 1 + mid.length) suf.length)
          (pre ++ (cur :: (mid ++ suf))) =
        pre ++ ((selectPass cur suf).1 :: (mid ++ (selectPass cur suf).2)) := by
  induction suf with
  | nil =>
    intro pre mid cur
    simp [lbInner, selectPass]
  | cons x suf ih =>
    intro pre mid cur
    rw [List.length_cons, List.range'_succ]
    simp only [lbInner]
    have hgi : (pre ++ (cur :: (mid ++ (x :: suf)))).getD pre.length (0, 0) = cur :=
      getD_append_len pre cur (mid ++ (x :: suf)) (0, 0)
    have hgj : (pre ++ (cur :: (mid ++ (x :: suf)))).getD (pre.length + 1 + mid.length) (0, 0)
        = x := by
      have hre : pre ++ (cur :: (mid ++ (x :: suf))) = (pre ++ (cur :: mid)) ++ (x :: suf) := by
        simp
      rw [hre]
      refine getD_append_len' (pre ++ (cur :: mid)) x suf (0, 0) _ ?_
      simp only [List.length_append, List.length_cons]
      omega
    rw [hgi, hgj]
    by_cases hc : x.2 > cur.2
    · rw [if_pos hc, lbSwap_spec pre mid suf cur x]
      have hre : pre ++ (x :: (mid ++ (cur :: suf)))
          = pre ++ (x :: ((mid ++ [cur]) ++ suf)) := by simp
      have harg : pre.length + 1 + mid.length + 1 = pre.length + 1 + (mid ++ [cur]).length := by
        simp only [List.length_append, List.length_cons, List.length_nil]
        omega
      rw [hre, harg, ih pre (mid ++ [cur]) x]
      simp only [selectPass, if_pos hc]
      simp
    · rw [if_neg hc]
      have hre : pre ++ (cur :: (mid ++ (x :: suf)))
          = pre ++ (cur :: ((mid ++ [x]) ++ suf)) := by simp
      have harg : pre.length + 1 + mid.length + 1 = pre.length + 1 + (mid ++ [x]).length := by
        simp only [List.length_append, List.length_cons, List.length_nil]
        omega
      rw [hre, harg, ih pre (mid ++ [x]) cur]
      simp only [selectPass, if_neg hc]
      simp

theorem lbSort_go (n : Nat) : ∀ (k : Nat) (todo done : List (Nat × Nat)),
    todo.length ≤ k → n = done.length + todo.length →
    (List.range' done.length todo.length).foldl
        (fun a i => lbInner i (List.range' (i + 1) (n - (i + 1))) a) (done ++ todo) =
      done ++ selSort todo := by
  intro k
  induction k with
  | zero =>
    intro todo done hk h
    have hl : todo = [] := List.eq_nil_of_length_eq_zero (Nat.le_zero.mp hk)
    subst hl
    simp [selSort, selSortFuel]
  | succ k ih =>
    intro todo done hk h
    cases todo with
    | nil => simp [selSort, selSortFuel]
    | cons cur suf =>
      rw [List.length_cons, List.range'_succ]
      simp only [List.foldl_cons]
      have hn : n - (done.length + 1) = suf.length := by
        rw [h]
        simp only [List.length_cons]
        omega
      rw [hn]
      have hinner := lbInner_eq suf done [] cur
      simp only [List.length_nil, Nat.add_zero, List.nil_append] at hinner
      rw [hinner]
      have hre : done ++ ((selectPass cur suf).1 :: (selectPass cur suf).2)
          = (done ++ [(selectPass cur suf).1]) ++ (selectPass cur suf).2 := by simp
      have hlen : done.length + 1 = (done ++ [(selectPass cur suf).1]).length := by simp
      have hk2 : (selectPass cur suf).2.length ≤ k := by
        rw [selectPass_snd_length]
        simpa using hk
      have hn2 : n = (done ++ [(selectPass cur suf).1]).length
          + (selectPass cur suf).2.length := by
        rw [selectPass_snd_length]
        simp only [List.length_append, List.length_cons, List.length_nil] at h ⊢
        omega
      rw [hre, hlen, ← selectPass_snd_length cur suf,
        ih (selectPass cur suf).2 (done ++ [(selectPass cur suf).1]) hk2 hn2]
      rw [selSort_cons]
      simp

theorem lbSort_eq_selSort (arr : List (Nat × Nat)) : lbSort arr = selSort arr := by
  have hgo := lbSort_go arr.length arr.length arr [] (Nat.le_refl _) (by simp)
  simp only [List.length_nil, List.nil_append] at hgo
  rw [lbSort, List.range_eq_range']
  exact hgo

/-- C7 counterexample: with players 0, 1, 2 registered in that order and
high scores 5, 5, 10, the leaderboard returns the two tied players in
REVERSE registration order — player 1 before player 0 — so ties are not
broken by first-registered-wins as the claim states. -/
theorem claim_C7_cex :
    getLeaderboard [0, 1, 2] (fun p => if p = 2 then 10 else 5) =
      [(2, 10), (1, 5), (0, 5)] ∧
    getLeaderboard [0, 1, 2] (fun p => if p = 2 then 10 else 5) ≠
      [(2, 10), (0, 5), (1, 5)] := by
  decide

/-- C7 amended: for every set of registered players with their high scores,
`getLeaderboard` returns the first 10 entries of a permutation of all
(player, highScore) pairs that is sorted descending by score — i.e. a
correct top-K selection — but the order of equal-scored players is NOT the
registration order (the exchange sort is unstable). -/
theorem claim_C7_amended (players : List Nat) (highScores : Nat → Nat) :
    List.Perm (lbSort (players.map fun p => (p, highScores p)))
      (players.map fun p => (p, highScores p)) ∧
    List.Pairwise (fun a b : Nat × Nat => b.2 ≤ a.2)
      (lbSort (players.map fun p => (p, highScores p))) ∧
    getLeaderboard players highScores =
      (lbSort (players.map fun p => (p, highScores p))).take 10 := by
  refine ⟨?_, ?_, rfl⟩
  · rw [lbSort_eq_selSort]
    exact selSort_perm _
  · rw [lbSort_eq_selSort]
    exact selSort_sorted _

end BalloonGame

